import Mathlib

/-!
Shallow embedding of duyendinh2021/nestjs-clean-ddd-starter.

The repository ships a single wired endpoint (GET / via AppController and
GetHelloUseCase) together with example domain code: a User entity
(src/domain/entities/user.entity.ts), a CreateUserUseCase
(src/application/use-cases/create-user.use-case.ts) and, in the
CLEAN_ARCHITECTURE_GUIDE, a Product entity and an in-memory
ProductRepositoryImpl.  JavaScript promises are modelled by an explicit
resolved/rejected sum, thrown errors by Except, the number type of prices
and discounts by the rationals, and Date timestamps by natural numbers.
-/

/-- Model of a settled JavaScript promise: it either resolved with a value
or rejected with an error message. -/
inductive Promise (α : Type) : Type
  | resolved (a : α) : Promise α
  | rejected (e : String) : Promise α
  deriving Repr, DecidableEq

/-- True when the promise resolved. -/
def Promise.isResolved : Promise α → Bool
  | .resolved _ => true
  | .rejected _ => false

/-- GetHelloUseCase.execute from
src/application/use-cases/get-hello.use-case.ts:
it returns Promise.resolve with the greeting string. -/
def GetHelloUseCase.execute : Promise String :=
  Promise.resolved "Hello World!"

/-- AppController.getHello from
src/presentation/controllers/app.controller.ts: an async method that
awaits getHelloUseCase.execute and returns its value.  Await of a
resolved promise yields its value, which the async method wraps again;
a rejection propagates. -/
def AppController.getHello : Promise String :=
  match GetHelloUseCase.execute with
  | .resolved a => Promise.resolved a
  | .rejected e => Promise.rejected e

/-- An HTTP response: status code and text body. -/
structure HttpResponse where
  status : Nat
  body : String
  deriving Repr, DecidableEq

/-- Modelled from the spec: the NestJS framework layer that turns a GET
handler result into an HTTP response is not part of src/.  Per the spec,
the single endpoint GET / returns the handler string as the body with
status 200; a rejected handler promise would not produce that successful
response (modelled as none). -/
def nestDispatchGet (handlerResult : Promise String) : Option HttpResponse :=
  match handlerResult with
  | .resolved b => some { status := 200, body := b }
  | .rejected _ => none

/-- The response of the single endpoint GET /, wired to
AppController.getHello by the controller decorators. -/
def handleGetRoot : Option HttpResponse :=
  nestDispatchGet AppController.getHello

/-- The User entity from src/domain/entities/user.entity.ts.  Its
TypeScript constructor assigns the four readonly fields and performs no
validation, so construction is the plain structure constructor.
Date timestamps are modelled as naturals. -/
structure User where
  id : String
  email : String
  name : String
  createdAt : Nat
  deriving Repr, DecidableEq

/-- The character list of a string with leading and trailing whitespace
removed: the JavaScript String.prototype.trim on the character-list view
of strings. -/
def trimChars (s : String) : List Char :=
  ((s.toList.dropWhile Char.isWhitespace).reverse.dropWhile Char.isWhitespace).reverse

/-- Whether a string contains a character: the JavaScript
String.prototype.includes with a one-character argument, on the
character-list view of strings. -/
def containsChar (s : String) (c : Char) : Bool :=
  s.toList.contains c

/-- User.updateName: throws when the new name is falsy (the empty string)
or trims to length zero, else returns a copy with the new name. -/
def User.updateName (u : User) (newName : String) : Except String User :=
  if newName == "" || (trimChars newName).length == 0 then
    Except.error "Name cannot be empty"
  else
    Except.ok { id := u.id, email := u.email, name := newName, createdAt := u.createdAt }

/-- User.isValid: the email contains the at sign and the name is
non-empty. -/
def User.isValid (u : User) : Bool :=
  containsChar u.email '@' && decide (u.name.length > 0)

/-- The Product entity from the CLEAN_ARCHITECTURE_GUIDE
(src/domain/entities/product.entity.ts in the guide).  Prices are
JavaScript numbers, modelled as rationals. -/
structure Product where
  id : String
  name : String
  price : ℚ
  category : String
  deriving Repr, DecidableEq

/-- Product.applyDiscount: throws for a discount percentage below 0 or
above 100, else returns a new Product with the discounted price and the
other fields unchanged. -/
def Product.applyDiscount (p : Product) (discountPercent : ℚ) : Except String Product :=
  if discountPercent < 0 ∨ discountPercent > 100 then
    Except.error "Invalid discount percentage"
  else
    Except.ok { id := p.id, name := p.name
                price := p.price * (1 - discountPercent / 100)
                category := p.category }

/-- The request DTO of CreateUserUseCase
(src/application/use-cases/create-user.use-case.ts). -/
structure CreateUserRequest where
  email : String
  name : String
  deriving Repr, DecidableEq

/-- CreateUserUseCase.execute
(src/application/use-cases/create-user.use-case.ts), embedded with the
injected UserRepository kept abstract: findByEmail and save are the two
repository operations the method calls, acting on an arbitrary repository
state type.  The nondeterministic generateId result and the current Date
are passed in as genId and now.  Thrown errors become Except.error; the
method body touches the state only through save, so each throwing branch
returns the incoming state unchanged. -/
def CreateUserUseCase.execute {σ : Type}
    (findByEmail : String → σ → Option User) (save : User → σ → σ)
    (genId : String) (now : Nat)
    (request : CreateUserRequest) (s : σ) : Except String User × σ :=
  if request.email == "" || request.name == "" then
    (Except.error "Email and name are required", s)
  else
    match findByEmail request.email s with
    | some _ => (Except.error "User with this email already exists", s)
    | none =>
      let user : User := { id := genId, email := request.email
                           name := request.name, createdAt := now }
      if !user.isValid then
        (Except.error "Invalid user data", s)
      else
        (Except.ok user, save user s)

/-- ProductRepositoryImpl.findById
(src/infrastructure/repositories/product.repository.impl.ts in the
guide): first stored product with the given id, or null. -/
def ProductRepositoryImpl.findById (products : List Product) (i : String) :
    Option Product :=
  products.find? (fun p => p.id == i)

/-- ProductRepositoryImpl.findByCategory: all stored products of the
category. -/
def ProductRepositoryImpl.findByCategory (products : List Product) (category : String) :
    List Product :=
  products.filter (fun p => p.category == category)

/-- ProductRepositoryImpl.save: replace the first stored product with
the same id when one exists, else push at the end. -/
def ProductRepositoryImpl.save (products : List Product) (product : Product) :
    List Product :=
  match products.findIdx? (fun p => p.id == product.id) with
  | some index => products.set index product
  | none => products ++ [product]

/-- ProductRepositoryImpl.delete: keep the products whose id differs. -/
def ProductRepositoryImpl.delete (products : List Product) (i : String) :
    List Product :=
  products.filter (fun p => !(p.id == i))

/-- The repository states reachable from the initial in-memory store
(products = []) by the write operations of ProductRepositoryImpl. -/
inductive ProductRepositoryImpl.Reachable : List Product → Prop
  | init : ProductRepositoryImpl.Reachable []
  | save {s : List Product} (p : Product) :
      ProductRepositoryImpl.Reachable s →
      ProductRepositoryImpl.Reachable (ProductRepositoryImpl.save s p)
  | delete {s : List Product} (i : String) :
      ProductRepositoryImpl.Reachable s →
      ProductRepositoryImpl.Reachable (ProductRepositoryImpl.delete s i)

/-- No two stored products share an id. -/
def noDupIds (products : List Product) : Prop :=
  (products.map Product.id).Nodup

/-- The mutable program state of the repository examples: the two
in-memory stores.  The wired application itself holds no other mutable
state. -/
structure AppState where
  products : List Product
  users : List User
  deriving Repr, DecidableEq

/-- GetHelloUseCase.execute threaded through the program state: the
method body reads no field and calls nothing stateful, so the stateful
embedding returns the promise and the state it was given. -/
def GetHelloUseCase.executeSt (s : AppState) : Promise String × AppState :=
  (GetHelloUseCase.execute, s)

/-- C1: GetHelloUseCase.execute takes no inputs and always resolves to
the fixed string, the same constant on every call. -/
theorem getHelloUseCase_execute_constant :
    GetHelloUseCase.execute = Promise.resolved "Hello World!" := rfl

/-- C2: the single endpoint GET / produces status 200 with body exactly
the greeting text, with no request input to vary on. -/
theorem getRoot_status200_helloWorld :
    handleGetRoot = some { status := 200, body := "Hello World!" } := rfl

/-- C3: the single execution path cannot fail: the promise of
GetHelloUseCase.execute and that of AppController.getHello are both
resolved, never rejected. -/
theorem helloPath_cannot_fail :
    AppController.getHello.isResolved = true
    ∧ GetHelloUseCase.execute.isResolved = true := ⟨rfl, rfl⟩

/-- C4: AppController.getHello returns exactly the value produced by
GetHelloUseCase.execute; the controller is a pure pass-through. -/
theorem appController_getHello_passthrough :
    AppController.getHello = GetHelloUseCase.execute := rfl

/-- C5: a call to GetHelloUseCase.execute has no side effects: threaded
through the program state it leaves every component of that state
unchanged and resolves to the constant greeting. -/
theorem getHelloUseCase_execute_no_side_effects (s : AppState) :
    GetHelloUseCase.executeSt s = (Promise.resolved "Hello World!", s) := rfl

/-- C6 counterexample: the User constructor performs no validation, so
construction succeeds with an email that does not contain the at sign:
this concrete successfully constructed User refutes the claim that every
constructed User has an email containing the at sign. -/
theorem user_constructed_without_at_sign :
    containsChar (User.mk "u1" "bob.example.com" "Bob" 0).email '@' = false
    ∧ (User.mk "u1" "bob.example.com" "Bob" 0).isValid = false := by
  constructor <;> decide

/-- C6 amended: the User entity applies no constructor-time check; the
email-contains-at-sign rule lives in isValid, so validity is only
guaranteed for users that pass isValid: every User accepted by isValid
has an email containing the at sign. -/
theorem user_isValid_email_contains_at (u : User) (h : u.isValid = true) :
    containsChar u.email '@' = true := by
  unfold User.isValid at h
  exact (Bool.and_eq_true _ _ |>.mp h).1

/-- C6 amended witness at a concrete valid user. -/
theorem user_isValid_email_contains_at_witness :
    (User.mk "u2" "bob@example.com" "Bob" 0).isValid = true
    ∧ containsChar (User.mk "u2" "bob@example.com" "Bob" 0).email '@' = true :=
  ⟨by decide, user_isValid_email_contains_at (User.mk "u2" "bob@example.com" "Bob" 0) (by decide)⟩

/-- C7 counterexample: logic other than the greeting handler is
implemented and carries testable properties: the shipped
User.updateName rejects the empty name with a specific error and renames
on a non-empty name, a behavior entirely absent from GET /. -/
theorem other_testable_logic_exists :
    (User.mk "1" "a@b.com" "Bob" 0).updateName "" = Except.error "Name cannot be empty"
    ∧ (User.mk "1" "a@b.com" "Bob" 0).updateName "Alice"
        = Except.ok (User.mk "1" "a@b.com" "Alice" 0) := by
  constructor <;> rfl

/-- C7 amended: beyond the GET / property the repository does implement
further testable logic in its example files; in particular
User.updateName rejects the empty name for every user. -/
theorem user_updateName_rejects_empty (u : User) :
    u.updateName "" = Except.error "Name cannot be empty" := rfl

/-- C8: applyDiscount throws exactly the invalid-percentage error when
the discount is below 0 or above 100; for a discount within bounds it
returns the product with the discounted price and the same id, name and
category, the receiver being immutable. -/
theorem product_applyDiscount_spec (p : Product) (d : ℚ) :
    (p.applyDiscount d = Except.error "Invalid discount percentage" ↔ d < 0 ∨ d > 100)
    ∧ (0 ≤ d → d ≤ 100 →
        p.applyDiscount d = Except.ok
          { id := p.id, name := p.name
            price := p.price * (1 - d / 100), category := p.category }) := by
  unfold Product.applyDiscount
  by_cases h : d < 0 ∨ d > 100
  · refine ⟨by simp [h], fun h0 h100 => ?_⟩
    rcases h with h | h
    · exact absurd h0 (not_le.mpr h)
    · exact absurd h100 (not_le.mpr h)
  · refine ⟨by simp [h], fun _ _ => by simp [h]⟩

/-- C8 witness: the concrete discount from the guide test: 20 percent
off a price of 100 yields 80. -/
theorem product_applyDiscount_spec_witness :
    (0 : ℚ) ≤ 20 ∧ (20 : ℚ) ≤ 100 ∧
    Product.applyDiscount
        { id := "1", name := "Test Product", price := 100, category := "Electronics" } 20
      = Except.ok { id := "1", name := "Test Product", price := 80, category := "Electronics" } := by
  refine ⟨by norm_num, by norm_num, ?_⟩
  have h := (product_applyDiscount_spec
      { id := "1", name := "Test Product", price := 100, category := "Electronics" } 20).2
      (by norm_num) (by norm_num)
  rw [h]
  norm_num

/-- C9: CreateUserUseCase.execute, over any repository state and any
save operation, either throws leaving the state untouched (save never
invoked: the resulting state equals the incoming one for every possible
save), or succeeds with a User carrying exactly the request email and
name, whose save result is the final state; the success cases are
exactly those with a non-empty email and name, no user already holding
the email, and a valid constructed user. -/
theorem createUserUseCase_execute_atomic {σ : Type}
    (findByEmail : String → σ → Option User) (save : User → σ → σ)
    (genId : String) (now : Nat) (request : CreateUserRequest) (s : σ) :
    ((CreateUserUseCase.execute findByEmail save genId now request s).1.isOk
      = (!(request.email == "") && !(request.name == "")
         && (findByEmail request.email s).isNone
         && (User.mk genId request.email request.name now).isValid))
    ∧ ((∃ e, CreateUserUseCase.execute findByEmail save genId now request s
            = (Except.error e, s))
       ∨ (∃ u, CreateUserUseCase.execute findByEmail save genId now request s
            = (Except.ok u, save u s)
          ∧ u.email = request.email ∧ u.name = request.name)) := by
  unfold CreateUserUseCase.execute
  by_cases h1 : (request.email == "" || request.name == "") = true
  · rw [if_pos h1]
    rcases Bool.or_eq_true _ _ |>.mp h1 with h | h <;>
      simp [Except.isOk, Except.toBool, h]
  · rw [if_neg h1]
    rw [Bool.or_eq_true, not_or] at h1
    obtain ⟨he, hn⟩ := h1
    cases hfind : findByEmail request.email s with
    | some u0 => simp [Except.isOk, Except.toBool, Bool.eq_false_iff.mpr he,
        Bool.eq_false_iff.mpr hn, hfind]
    | none =>
      by_cases hv : (User.mk genId request.email request.name now).isValid = true
      · simp only [Except.isOk, Except.toBool, Bool.eq_false_iff.mpr he,
          Bool.eq_false_iff.mpr hn, hfind, hv, if_neg, Bool.not_true, Bool.not_false,
          Option.isNone_none, Bool.and_self, Bool.and_true, Bool.true_and, if_false,
          Bool.false_eq_true, not_false_eq_true]
        exact ⟨trivial, Or.inr ⟨_, rfl, rfl, rfl⟩⟩
      · simp [Except.isOk, Except.toBool, Bool.eq_false_iff.mpr he, Bool.eq_false_iff.mpr hn,
          hfind, Bool.eq_false_iff.mpr hv]

/-- save on the empty store pushes the product. -/
theorem productSave_nil (p : Product) : ProductRepositoryImpl.save [] p = [p] := rfl

/-- Unfolding of save on a cons cell: replace the head when the id
matches, else keep the head and save into the tail. -/
theorem productSave_cons (a : Product) (l : List Product) (p : Product) :
    ProductRepositoryImpl.save (a :: l) p =
      if a.id == p.id then p :: l else a :: ProductRepositoryImpl.save l p := by
  unfold ProductRepositoryImpl.save
  rw [List.findIdx?_cons]
  by_cases h : (a.id == p.id) = true
  · rw [if_pos h, if_pos h]
    rfl
  · rw [if_neg h, if_neg h, List.findIdx?_succ]
    cases hf : List.findIdx? (fun q => q.id == p.id) l with
    | none => simp [hf]
    | some i => simp [hf, List.set_cons_succ]

/-- After save, the id of the saved product resolves to it. -/
theorem productFindById_save (l : List Product) (p : Product) :
    ProductRepositoryImpl.findById (ProductRepositoryImpl.save l p) p.id = some p := by
  induction l with
  | nil =>
    rw [productSave_nil]
    unfold ProductRepositoryImpl.findById
    simp [List.find?_cons]
  | cons a l ih =>
    rw [productSave_cons]
    by_cases h : (a.id == p.id) = true
    · rw [if_pos h]
      unfold ProductRepositoryImpl.findById
      simp [List.find?_cons]
    · rw [if_neg h]
      unfold ProductRepositoryImpl.findById at ih ⊢
      rw [List.find?_cons]
      simp only [h]
      exact ih

/-- Every id present after save was the saved id or already present. -/
theorem productIds_save_subset (l : List Product) (p : Product) (x : String) :
    x ∈ (ProductRepositoryImpl.save l p).map Product.id →
      x = p.id ∨ x ∈ l.map Product.id := by
  induction l with
  | nil =>
    rw [productSave_nil]
    intro hx
    simp at hx
    exact Or.inl hx
  | cons a l ih =>
    rw [productSave_cons]
    by_cases h : (a.id == p.id) = true
    · rw [if_pos h]
      intro hx
      rcases List.mem_map.mp hx with ⟨q, hq, rfl⟩
      rcases List.mem_cons.mp hq with rfl | hq
      · exact Or.inl rfl
      · exact Or.inr (List.mem_map.mpr ⟨q, List.mem_cons_of_mem a hq, rfl⟩)
    · rw [if_neg h]
      intro hx
      simp only [List.map_cons, List.mem_cons] at hx
      rcases hx with rfl | hx
      · exact Or.inr (by simp)
      · rcases ih hx with h1 | h1
        · exact Or.inl h1
        · exact Or.inr (by simp [h1])

/-- save preserves distinctness of stored ids. -/
theorem noDupIds_save (l : List Product) (p : Product) (h : noDupIds l) :
    noDupIds (ProductRepositoryImpl.save l p) := by
  induction l with
  | nil =>
    rw [productSave_nil]
    simp [noDupIds]
  | cons a l ih =>
    rw [productSave_cons]
    unfold noDupIds at h
    rw [List.map_cons, List.nodup_cons] at h
    obtain ⟨ha, hl⟩ := h
    by_cases hid : (a.id == p.id) = true
    · rw [if_pos hid]
      have heq : a.id = p.id := beq_iff_eq.mp hid
      unfold noDupIds
      rw [List.map_cons, List.nodup_cons]
      exact ⟨heq ▸ ha, hl⟩
    · rw [if_neg hid]
      unfold noDupIds
      rw [List.map_cons, List.nodup_cons]
      refine ⟨fun hmem => ?_, ih hl⟩
      rcases productIds_save_subset l p a.id hmem with h1 | h1
      · exact hid (beq_iff_eq.mpr h1)
      · exact ha h1

/-- delete preserves distinctness of stored ids. -/
theorem noDupIds_delete (l : List Product) (i : String) (h : noDupIds l) :
    noDupIds (ProductRepositoryImpl.delete l i) := by
  unfold noDupIds at h ⊢
  unfold ProductRepositoryImpl.delete
  exact ((List.filter_sublist l).map Product.id).nodup h

/-- Every reachable store has pairwise distinct ids. -/
theorem reachable_noDupIds (s : List Product)
    (h : ProductRepositoryImpl.Reachable s) : noDupIds s := by
  induction h with
  | init => simp [noDupIds]
  | save p _ ih => exact noDupIds_save _ p ih
  | delete i _ ih => exact noDupIds_delete _ i ih

/-- C10: on every reachable repository state, saving a product makes a
subsequent findById on its id resolve to exactly that product; save is
an upsert, so the store holds no two products with the same id, before
and after the save. -/
theorem productRepositoryImpl_save_upsert (s : List Product) (p : Product)
    (h : ProductRepositoryImpl.Reachable s) :
    ProductRepositoryImpl.findById (ProductRepositoryImpl.save s p) p.id = some p
    ∧ noDupIds s ∧ noDupIds (ProductRepositoryImpl.save s p) :=
  ⟨productFindById_save s p, reachable_noDupIds s h,
    noDupIds_save s p (reachable_noDupIds s h)⟩

/-- C10 witness at the empty initial store and a concrete product. -/
theorem productRepositoryImpl_save_upsert_witness :
    ProductRepositoryImpl.findById
        (ProductRepositoryImpl.save []
          { id := "1", name := "Test Product", price := 100, category := "Electronics" })
        "1"
      = some { id := "1", name := "Test Product", price := 100, category := "Electronics" }
    ∧ noDupIds [] ∧ noDupIds
        (ProductRepositoryImpl.save []
          { id := "1", name := "Test Product", price := 100, category := "Electronics" }) :=
  productRepositoryImpl_save_upsert []
    { id := "1", name := "Test Product", price := 100, category := "Electronics" }
    ProductRepositoryImpl.Reachable.init
